import Mathlib

/-!
Verification development for the `gxnda/kademlia` repository.

The Python sources under `kademlia_dht/` (node, storage) and `kademlia/`
(routers) are shallowly embedded below.  160-bit IDs are modelled as `Nat`
(Python ints); wall-clock ISO timestamps are modelled as a `Nat` "now"
parameter threaded through the operations; the stateful methods become pure
state-passing functions, and side effects of RPC handlers (STORE RPCs sent
out, bucket-list insertions) are recorded in an explicit effect trace.

Some modules the embedded code calls into (`buckets.py`, `id.py`,
`contact.py`, `constants.py`) are not part of the source tree given here;
the few operations needed from them are modelled from the specification and
are marked `Modelled from the spec:` in their doc comments.
-/

namespace Kademlia

/-- Contact: per the spec, a contact is a pair (ID, protocol endpoint) and
equality is by ID.  Only the ID is relevant to the embedded code. -/
structure Contact where
  id : Nat
  deriving DecidableEq, Repr

/-- StoreValue: `{value, expiration_time, republish_timestamp}` as built by
`VirtualStorage.set` / `SecondaryJSONStorage.set` (`storage.py`).  The ISO
timestamp string is modelled as a `Nat` instant. -/
structure StoreValue where
  value : String
  expiration_time : Nat
  republish_timestamp : Nat
  deriving DecidableEq, Repr

/-- The backing dictionary `dict[int, StoreValue]` of `VirtualStorage`,
modelled as an association list (insertion ordered, keys unique when built
by `vset`). -/
abbrev VStore := List (Nat × StoreValue)

/-- `VirtualStorage.contains`: `key.value in self._store`. -/
def vcontains (s : VStore) (k : Nat) : Bool :=
  s.any (fun p => p.1 = k)

/-- `VirtualStorage`'s dictionary lookup `self._store[key]` (first binding
for the key, `none` for Python's `KeyError`). -/
def vfind (s : VStore) (k : Nat) : Option StoreValue :=
  (s.find? (fun p => p.1 = k)).map (fun p => p.2)

/-- `VirtualStorage.get`: `self._store[key]["value"]` (defaulting where the
Python code would raise `KeyError`). -/
def vgetValue (s : VStore) (k : Nat) : String :=
  ((vfind s k).map (fun sv => sv.value)).getD ""

/-- `VirtualStorage.set`: dictionary assignment
`self._store[key.value] = {value, expiration_time, republish_timestamp: now}`;
overwrites in place when the key is present, otherwise appends. -/
def vset (s : VStore) (k : Nat) (v : String) (e : Nat) (now : Nat) : VStore :=
  if s.any (fun p => p.1 = k) then
    s.map (fun p => if p.1 = k then (k, StoreValue.mk v e now) else p)
  else
    s ++ [(k, StoreValue.mk v e now)]

/-- `VirtualStorage.remove`: `self._store.pop(key, None)`. -/
def vremove (s : VStore) (k : Nat) : VStore :=
  s.filter (fun p => p.1 ≠ k)

/-- `VirtualStorage.get_keys`: `list(self._store.keys())`. -/
def vgetKeys (s : VStore) : List Nat :=
  s.map (fun p => p.1)

/-- `VirtualStorage.touch`: `self._store[key]["republish_timestamp"] = now`.
State effect only: when the key is absent Python raises `KeyError` and the
dictionary is unchanged, which the identity of `List.map` on a non-matching
list also models. -/
def vtouch (s : VStore) (k : Nat) (now : Nat) : VStore :=
  s.map (fun p =>
    if p.1 = k then (p.1, StoreValue.mk p.2.value p.2.expiration_time now) else p)

/-- `VirtualStorage.get_expiration_time_sec`: `self._store[key]["expiration_time"]`. -/
def vgetExpiration (s : VStore) (k : Nat) : Option Nat :=
  (vfind s k).map (fun sv => sv.expiration_time)

/-- `VirtualStorage.get_timestamp`: `self._store[key]["republish_timestamp"]`. -/
def vgetTimestamp (s : VStore) (k : Nat) : Option Nat :=
  (vfind s k).map (fun sv => sv.republish_timestamp)

/-!
### SecondaryJSONStorage

The persistent variant round-trips its dictionary through `json.dump` /
`json.load`.  A Python dict key is either an `int` or a `str`; JSON object
keys are always strings, so `json.dump` converts every `int` key to its
decimal string and `json.load` yields only string keys.  `PyKey` models a
Python dictionary key; the file contents are an association list over
`PyKey` on which every key is a `pstr` (established by `jsonDump`).
-/

/-- A Python dict key as used by `SecondaryJSONStorage`: an int or a str.
Python dict lookup compares them with `==`, and `5 == "5"` is `False`. -/
inductive PyKey where
  | pint (n : Nat)
  | pstr (s : String)
  deriving DecidableEq, Repr

/-- The JSON file contents of `SecondaryJSONStorage`, as a dictionary. -/
abbrev JStore := List (PyKey × StoreValue)

/-- `json.dump` followed by `json.load`: every `int` dict key becomes its
decimal-string JSON key. -/
def jsonDump (d : JStore) : JStore :=
  d.map (fun p =>
    match p.1 with
    | PyKey.pint n => (PyKey.pstr (toString n), p.2)
    | PyKey.pstr s => (PyKey.pstr s, p.2))

/-- Dictionary lookup `json_data[key]` (`none` is Python's `KeyError`). -/
def jfind (d : JStore) (k : PyKey) : Option StoreValue :=
  (d.find? (fun p => p.1 = k)).map (fun p => p.2)

/-- `SecondaryJSONStorage.set`: load the file, `pop` the key under its int
form and under its str form if present, assign `json_data[int(key.value)]`,
and dump back to the file. -/
def jset (file : JStore) (k : Nat) (v : String) (e : Nat) (now : Nat) : JStore :=
  let d := file
  let d := if d.any (fun p => p.1 = PyKey.pint k) then
    d.filter (fun p => p.1 ≠ PyKey.pint k) else d
  let d := if d.any (fun p => p.1 = PyKey.pstr (toString k)) then
    d.filter (fun p => p.1 ≠ PyKey.pstr (toString k)) else d
  jsonDump (d ++ [(PyKey.pint k, StoreValue.mk v e now)])

/-- `SecondaryJSONStorage.contains` for an int key:
`str(key) in list(json_data.keys())`. -/
def jcontains (file : JStore) (k : Nat) : Bool :=
  file.any (fun p => p.1 = PyKey.pstr (toString k))

/-- `SecondaryJSONStorage.get` for an int key: `json_data[str(key)]["value"]`. -/
def jget (file : JStore) (k : Nat) : Option String :=
  (jfind file (PyKey.pstr (toString k))).map (fun sv => sv.value)

/-- `SecondaryJSONStorage.touch` for an int key: load the file, execute
`json_data[key]["republish_timestamp"] = now` — note the raw int index,
unlike `get`/`contains` which index with `str(key)` — and dump back.
`none` models the `KeyError` raised when the int key is absent. -/
def jtouch (file : JStore) (k : Nat) (now : Nat) : Option JStore :=
  match jfind file (PyKey.pint k) with
  | none => none
  | some sv =>
    some (jsonDump (file.map (fun p =>
      if p.1 = PyKey.pint k then (p.1, StoreValue.mk sv.value sv.expiration_time now)
      else p)))

/-!
### Node (`kademlia_dht/node.py`)

The RPC handlers are embedded as pure functions on a `NodeState`.  Each
handler returns its Python return value (or the exception it raises, as
`Except`), the updated state, and a trace of its externally visible calls:
the STORE RPCs issued by `send_key_values_if_new_contact` and the
`bucket_list.add_contact` insertions, in program order.
-/

/-- `Constants.EXPIRATION_TIME_SEC` (spec §6: default 86400). -/
def EXPIRATION_TIME_SEC : Nat := 86400

/-- The exceptions raised by the handlers' sender-is-self guards
(`errors.py`): `SendingQueryToSelfError` from `ping`/`find_node`/`find_value`
and `SenderIsSelfError` from `store`. -/
inductive NodeError where
  | sendingQueryToSelf
  | senderIsSelf
  deriving DecidableEq, Repr

/-- An externally visible call made by an RPC handler. -/
inductive Effect where
  | sendStore (target : Contact) (key : Nat) (val : String)
  | addContact (c : Contact)
  deriving DecidableEq, Repr

/-- The state of a `Node` that the embedded handlers read and write:
our contact, primary and cache storage, the bucket list's contacts, and the
DHT back-reference's pending-contact IDs (`hasDht = false` models
`self.dht is None`, as in unit testing). -/
structure NodeState where
  ourContact : Contact
  storage : VStore
  cacheStorage : VStore
  bucketContacts : List Contact
  pendingIds : List Nat
  hasDht : Bool
  deriving DecidableEq, Repr

/-- Modelled from the spec: `BucketList.contact_exists` (`buckets.py` is not
in the given sources).  Spec §3: "A contact is equal to another iff their
IDs are equal", so existence is existence of a contact with the same ID. -/
def contactExists (st : NodeState) (sender : Contact) : Bool :=
  st.bucketContacts.any (fun c => c.id = sender.id)

/-- `Node._is_new_contact`: not (in the bucket list, or — when a DHT
back-reference exists — among the DHT's pending contacts' IDs). -/
def isNewContact (st : NodeState) (sender : Contact) : Bool :=
  let ret := contactExists st sender
  let ret := if st.hasDht then ret || st.pendingIds.contains sender.id else ret
  !ret

/-- Modelled from the spec: `BucketList.add_contact` (`buckets.py` is not in
the given sources).  Spec §4.2 insertion discipline, flattened over the
bucket structure: a contact already present (by ID) is refreshed and moved
to the most-recently-seen end, otherwise the contact is appended.  Bucket
capacity, splitting and the ping-eviction dance are not modelled; no claim
below depends on them. -/
def addContactState (st : NodeState) (c : Contact) : NodeState :=
  if contactExists st c then
    { st with bucketContacts := st.bucketContacts.filter (fun x => x.id ≠ c.id) ++ [c] }
  else
    { st with bucketContacts := st.bucketContacts ++ [c] }

/-- Python's `min` over a non-empty list (`min([c.id ^ k for c in contacts])`
in `send_key_values_if_new_contact`); 0 on the empty list, where the Python
call would raise and which the caller guards against. -/
def natListMin : List Nat → Nat
  | [] => 0
  | [x] => x
  | x :: y :: ys => min x (natListMin (y :: ys))

/-- `Node.send_key_values_if_new_contact`: for a new sender, for each key in
primary storage whose distance to us is strictly below the minimum distance
to any bucket-list contact, issue `sender.protocol.store(our_contact, key,
storage.get(key))`.  Returns the trace of STORE RPCs issued, in order. -/
def send_key_values_if_new_contact (st : NodeState) (sender : Contact) : List Effect :=
  if isNewContact st sender then
    let contacts := st.bucketContacts
    if 0 < contacts.length then
      (vgetKeys st.storage).filterMap (fun k =>
        let distance := natListMin (contacts.map (fun c => c.id ^^^ k))
        if st.ourContact.id ^^^ k < distance then
          some (Effect.sendStore sender k (vgetValue st.storage k))
        else none)
    else []
  else []

/-- Insertion of a contact into an XOR-distance-sorted list (helper for the
spec-modelled `get_close_contacts`). -/
def insertByDistance (key : Nat) (c : Contact) : List Contact → List Contact
  | [] => [c]
  | x :: xs =>
    if c.id ^^^ key ≤ x.id ^^^ key then c :: x :: xs
    else x :: insertByDistance key c xs

/-- Sort contacts ascending by XOR distance to `key` (helper for the
spec-modelled `get_close_contacts`). -/
def sortByDistance (key : Nat) (l : List Contact) : List Contact :=
  l.foldr (insertByDistance key) []

/-- Modelled from the spec: `BucketList.get_close_contacts` (`buckets.py` is
not in the given sources).  Spec §4.2: "up to k contacts from across the
whole bucket list, sorted ascending by `c.id XOR key`, omitting any contact
whose ID equals `exclude`"; k = 20. -/
def get_close_contacts (contacts : List Contact) (key : Nat) (exclude : Nat) :
    List Contact :=
  (sortByDistance key (contacts.filter (fun c => c.id ≠ exclude))).take 20

/-- `Node.ping`: raise on sender = self, else propagate key values, insert
the sender, and return our contact. -/
def ping (st : NodeState) (sender : Contact) :
    Except NodeError Contact × NodeState × List Effect :=
  if sender.id = st.ourContact.id then
    (Except.error NodeError.sendingQueryToSelf, st, [])
  else
    let eff := send_key_values_if_new_contact st sender
    let st1 := addContactState st sender
    (Except.ok st.ourContact, st1, eff ++ [Effect.addContact sender])

/-- `Node.store`: raise on sender = self, else insert the sender, then for
`is_cached` write (key, val, caller's expiration) to cache storage, and
otherwise propagate key values and write (key, val,
`Constants.EXPIRATION_TIME_SEC`) to primary storage. -/
def store (st : NodeState) (key : Nat) (sender : Contact) (val : String)
    (isCached : Bool) (expirationTimeSec : Nat) (now : Nat) :
    Except NodeError Unit × NodeState × List Effect :=
  if sender.id = st.ourContact.id then
    (Except.error NodeError.senderIsSelf, st, [])
  else
    let st1 := addContactState st sender
    if isCached then
      (Except.ok (),
        { st1 with cacheStorage := vset st1.cacheStorage key val expirationTimeSec now },
        [Effect.addContact sender])
    else
      let eff := send_key_values_if_new_contact st1 sender
      (Except.ok (),
        { st1 with storage := vset st1.storage key val EXPIRATION_TIME_SEC now },
        [Effect.addContact sender] ++ eff)

/-- `Node.find_node`: raise on sender = self, else propagate key values,
insert the sender, and return `(get_close_contacts key (exclude: sender),
None)`. -/
def find_node (st : NodeState) (key : Nat) (sender : Contact) :
    Except NodeError (List Contact × Option String) × NodeState × List Effect :=
  if sender.id = st.ourContact.id then
    (Except.error NodeError.sendingQueryToSelf, st, [])
  else
    let eff := send_key_values_if_new_contact st sender
    let st1 := addContactState st sender
    (Except.ok (get_close_contacts st1.bucketContacts key sender.id, none),
      st1, eff ++ [Effect.addContact sender])

/-- `Node.find_value`: raise on sender = self, else propagate key values,
then answer from primary storage, else cache storage, else with the
close-contact list excluding the sender. -/
def find_value (st : NodeState) (key : Nat) (sender : Contact) :
    Except NodeError (Option (List Contact) × Option String) × NodeState × List Effect :=
  if sender.id = st.ourContact.id then
    (Except.error NodeError.sendingQueryToSelf, st, [])
  else
    let eff := send_key_values_if_new_contact st sender
    if vcontains st.storage key then
      (Except.ok (none, some (vgetValue st.storage key)), st, eff)
    else if vcontains st.cacheStorage key then
      (Except.ok (none, some (vgetValue st.cacheStorage key)), st, eff)
    else
      (Except.ok (some (get_close_contacts st.bucketContacts key sender.id), none),
        st, eff)

/-!
### Router (`kademlia/routers.py`)
-/

/-- Python's `contact in contact_list` / `contact.id in [c.id for c in l]`:
Contact equality is by ID (spec §3, `contact.py` is not in the given
sources). -/
def hasId (l : List Contact) (i : Nat) : Bool :=
  l.any (fun c => c.id = i)

/-- The append loops of `BaseRouter.get_closer_nodes`: append each peer to
`acc` unless a contact with its ID is already there. -/
def dedupAppend (acc : List Contact) (ps : List Contact) : List Contact :=
  ps.foldl (fun acc p => if hasId acc p.id then acc else acc ++ [p]) acc

/-- `BaseRouter.get_closer_nodes`, given the contacts the RPC to
`node_to_query` returned: filter out ourselves, the queried node, and
contacts already in `closer`/`further`; then append each remaining peer
whose `p.id XOR node_to_query.id` is strictly below
`node_to_query.id XOR key` to `closer`, and the rest to `further`
(each with per-ID deduplication).  Returns the updated pair
(closer_contacts, further_contacts). -/
def get_closer_nodes (ourId : Nat) (key : Nat) (nodeToQuery : Contact)
    (contacts : List Contact) (closer further : List Contact) :
    List Contact × List Contact :=
  let peers := contacts.filter (fun c =>
    c.id ≠ ourId && nodeToQuery.id ≠ c.id && !hasId closer c.id && !hasId further c.id)
  let nearestNodeDistance := nodeToQuery.id ^^^ key
  let closePeerNodes := peers.filter (fun p => p.id ^^^ nodeToQuery.id < nearestNodeDistance)
  let farPeerNodes := peers.filter (fun p => !(p.id ^^^ nodeToQuery.id < nearestNodeDistance))
  (dedupAppend closer closePeerNodes, dedupAppend further farPeerNodes)

/-- `Constants.A` — the lookup concurrency α (spec §6: 3;
`constants.py` is not in the given sources). -/
def ALPHA : Nat := 3

/-- The initialization phase of `Router.lookup` (the branch taken when
`TRY_CLOSEST_BUCKET` is false): `nodes_to_query = all_nodes[:A]`, each of
those goes to `closer_contacts` when `n.id ^ key < our_id ^ key` and to
`further_contacts` otherwise, and then the drain loop appends
`all_nodes[Constants.A + 1:]` — note the `A + 1` — to `further_contacts`.
Returns (nodes_to_query, closer_contacts, further_contacts). -/
def lookupInit (ourId : Nat) (key : Nat) (allNodes : List Contact) :
    List Contact × List Contact × List Contact :=
  let nodesToQuery := allNodes.take ALPHA
  let closer := nodesToQuery.filter (fun n => n.id ^^^ key < ourId ^^^ key)
  let further := nodesToQuery.filter (fun n => !(n.id ^^^ key < ourId ^^^ key))
  let further := further ++ allNodes.drop (ALPHA + 1)
  (nodesToQuery, closer, further)

/-!
### Storage operation sequences

`VOp` packages the mutating operations of the volatile storage so that
frame properties can be stated over arbitrary operation sequences.
-/

/-- A mutating operation on a `VirtualStorage`. -/
inductive VOp where
  | set (k : Nat) (v : String) (e : Nat) (now : Nat)
  | remove (k : Nat)
  | touch (k : Nat) (now : Nat)
  deriving DecidableEq, Repr

/-- The key an operation addresses. -/
def vopKey : VOp → Nat
  | VOp.set k _ _ _ => k
  | VOp.remove k => k
  | VOp.touch k _ => k

/-- Run one operation against the store. -/
def vapply (s : VStore) : VOp → VStore
  | VOp.set k v e now => vset s k v e now
  | VOp.remove k => vremove s k
  | VOp.touch k now => vtouch s k now

end Kademlia

/-!
## Theorems
-/

namespace Kademlia

theorem vfind_cons (p : Nat × StoreValue) (s : VStore) (k : Nat) :
    vfind (p :: s) k = if p.1 = k then some p.2 else vfind s k := by
  by_cases h : p.1 = k
  · simp [vfind, List.find?_cons_of_pos, h]
  · simp [vfind, List.find?_cons_of_neg, h]

theorem vcontains_eq_isSome (s : VStore) (k : Nat) :
    vcontains s k = (vfind s k).isSome := by
  induction s with
  | nil => rfl
  | cons p ps ih =>
    by_cases h : p.1 = k
    · simp [vcontains, vfind_cons, h]
    · simp only [vcontains, List.any_cons, vfind_cons, if_neg h]
      simp only [vcontains] at ih
      simp [h, ih]

theorem vfind_vset_self (s : VStore) (k : Nat) (v : String) (e t : Nat) :
    vfind (vset s k v e t) k = some (StoreValue.mk v e t) := by
  unfold vset
  by_cases h : s.any (fun p => p.1 = k)
  · rw [if_pos h]
    induction s with
    | nil => simp at h
    | cons p ps ih =>
      by_cases hp : p.1 = k
      · simp [vfind_cons, hp]
      · simp only [List.any_cons] at h
        rcases Bool.or_eq_true_iff.mp h with h' | h'
        · exact absurd (by simpa using h') hp
        · simp only [List.map_cons, if_neg hp, vfind_cons]
          exact ih h'
  · rw [if_neg h]
    induction s with
    | nil => simp [vfind_cons]
    | cons p ps ih =>
      simp only [List.any_cons, Bool.or_eq_true_iff, not_or] at h
      have hp : ¬ p.1 = k := by simpa using h.1
      simp only [List.cons_append, vfind_cons, if_neg hp]
      exact ih (by simpa using h.2)

theorem vfind_vset_ne (s : VStore) (k' k : Nat) (v : String) (e t : Nat)
    (hne : k' ≠ k) : vfind (vset s k' v e t) k = vfind s k := by
  unfold vset
  by_cases h : s.any (fun p => p.1 = k')
  · rw [if_pos h]
    induction s with
    | nil => rfl
    | cons p ps ih =>
      by_cases hp : p.1 = k'
      · simp only [List.map_cons, if_pos hp, vfind_cons, if_neg hne]
        rw [if_neg (hp ▸ hne)]
        by_cases hps : ps.any (fun q => q.1 = k')
        · exact ih hps
        · clear ih h
          induction ps with
          | nil => rfl
          | cons q qs ih2 =>
            simp only [List.any_cons, Bool.or_eq_true_iff, not_or] at hps
            have hq : ¬ q.1 = k' := by simpa using hps.1
            simp only [List.map_cons, if_neg hq]
            rw [vfind_cons, vfind_cons]
            by_cases hqk : q.1 = k
            · simp [hqk]
            · rw [if_neg hqk, if_neg hqk]
              exact ih2 (by simpa using hps.2)
      · simp only [List.map_cons, if_neg hp, vfind_cons]
        by_cases hpk : p.1 = k
        · simp [hpk]
        · rw [if_neg hpk, if_neg hpk]
          simp only [List.any_cons] at h
          rcases Bool.or_eq_true_iff.mp h with h' | h'
          · exact absurd (by simpa using h') hp
          · exact ih h'
  · rw [if_neg h]
    induction s with
    | nil => simp [vfind, hne]
    | cons p ps ih =>
      simp only [List.any_cons, Bool.or_eq_true_iff, not_or] at h
      simp only [List.cons_append, vfind_cons]
      by_cases hpk : p.1 = k
      · simp [hpk]
      · rw [if_neg hpk, if_neg hpk]
        exact ih (by simpa using h.2)

theorem vfind_vremove_ne (s : VStore) (k' k : Nat) (hne : k' ≠ k) :
    vfind (vremove s k') k = vfind s k := by
  induction s with
  | nil => rfl
  | cons p ps ih =>
    by_cases hp : p.1 = k'
    · have hpk : ¬ p.1 = k := fun hc => hne (hp ▸ hc ▸ rfl)
      calc vfind (vremove (p :: ps) k') k
          = vfind (vremove ps k') k := by
            congr 1
            simp [vremove, List.filter_cons, hp]
        _ = vfind ps k := ih
        _ = vfind (p :: ps) k := by rw [vfind_cons, if_neg hpk]
    · have hstep : vremove (p :: ps) k' = p :: vremove ps k' := by
        simp [vremove, List.filter_cons, hp]
      rw [hstep, vfind_cons, vfind_cons]
      by_cases hpk : p.1 = k
      · simp [hpk]
      · rw [if_neg hpk, if_neg hpk]
        exact ih

theorem vfind_vtouch_ne (s : VStore) (k' k t : Nat) (hne : k' ≠ k) :
    vfind (vtouch s k' t) k = vfind s k := by
  induction s with
  | nil => rfl
  | cons p ps ih =>
    by_cases hp : p.1 = k'
    · have hpk : ¬ p.1 = k := fun hc => hne (hp ▸ hc ▸ rfl)
      simp only [vtouch, List.map_cons, if_pos hp]
      rw [vfind_cons, vfind_cons, if_neg hpk, if_neg hpk]
      exact ih
    · simp only [vtouch, List.map_cons, if_neg hp]
      rw [vfind_cons, vfind_cons]
      by_cases hpk : p.1 = k
      · simp [hpk]
      · rw [if_neg hpk, if_neg hpk]
        exact ih

theorem vfind_vapply_ne (s : VStore) (op : VOp) (k : Nat)
    (h : vopKey op ≠ k) : vfind (vapply s op) k = vfind s k := by
  cases op with
  | set k' v e now => exact vfind_vset_ne s k' k v e now h
  | remove k' => exact vfind_vremove_ne s k' k h
  | touch k' now => exact vfind_vtouch_ne s k' k now h

theorem vfind_foldl_vapply (ops : List VOp) (k : Nat) :
    ∀ s : VStore, (∀ op ∈ ops, vopKey op ≠ k) →
      vfind (ops.foldl vapply s) k = vfind s k := by
  induction ops with
  | nil => intro s h; rfl
  | cons op ops ih =>
    intro s h
    rw [List.foldl_cons,
      ih (vapply s op) (fun o ho => h o (List.mem_cons_of_mem op ho)),
      vfind_vapply_ne s op k (h op (List.mem_cons_self op ops))]

/-- C8: after `set(k, v, e)` on the volatile storage, `contains(k)` holds and
`get(k)` returns `v`; this persists across any further sequence of
operations addressed to other keys; and any later `set(k, v₂, e₂)` (on any
store) overwrites the binding with the new value, expiration and a fresh
republish timestamp. -/
theorem claim_C8 (s : VStore) (k : Nat) (v : String) (e t : Nat)
    (ops : List VOp) (h : ∀ op ∈ ops, vopKey op ≠ k) :
    vcontains (ops.foldl vapply (vset s k v e t)) k = true ∧
    vgetValue (ops.foldl vapply (vset s k v e t)) k = v ∧
    vfind (ops.foldl vapply (vset s k v e t)) k = some (StoreValue.mk v e t) ∧
    (∀ (s₂ : VStore) (v₂ : String) (e₂ t₂ : Nat),
      vfind (vset s₂ k v₂ e₂ t₂) k = some (StoreValue.mk v₂ e₂ t₂)) := by
  have hfind : vfind (ops.foldl vapply (vset s k v e t)) k
      = some (StoreValue.mk v e t) := by
    rw [vfind_foldl_vapply ops k (vset s k v e t) h, vfind_vset_self]
  refine ⟨?_, ?_, hfind, fun s₂ v₂ e₂ t₂ => vfind_vset_self s₂ k v₂ e₂ t₂⟩
  · rw [vcontains_eq_isSome, hfind]
    rfl
  · rw [vgetValue, hfind]
    rfl

/-- Witness for C8 at a concrete store and operation sequence. -/
theorem claim_C8_witness :
    (∀ op ∈ [VOp.set 2 "b" 7 5, VOp.remove 3, VOp.touch 2 9], vopKey op ≠ 1) ∧
    vcontains
      ([VOp.set 2 "b" 7 5, VOp.remove 3, VOp.touch 2 9].foldl vapply
        (vset [] 1 "a" 4 0)) 1 = true ∧
    vgetValue
      ([VOp.set 2 "b" 7 5, VOp.remove 3, VOp.touch 2 9].foldl vapply
        (vset [] 1 "a" 4 0)) 1 = "a" :=
  ⟨by decide,
    (claim_C8 [] 1 "a" 4 0 [VOp.set 2 "b" 7 5, VOp.remove 3, VOp.touch 2 9]
      (by decide)).1,
    (claim_C8 [] 1 "a" 4 0 [VOp.set 2 "b" 7 5, VOp.remove 3, VOp.touch 2 9]
      (by decide)).2.1⟩

/-- C9 fails on the persistent variant: after `set(5, ...)` the JSON file
holds the binding under the string key `"5"` (`contains(5)` is true), but
`touch(5)` indexes the loaded dictionary with the raw int `5` and raises
`KeyError` (modelled as `none`), updating nothing. -/
theorem claim_C9_bug :
    jcontains (jset [] 5 "val" 0 10) 5 = true ∧
    jget (jset [] 5 "val" 0 10) 5 = some "val" ∧
    jtouch (jset [] 5 "val" 0 10) 5 99 = none := by
  decide

theorem send_key_values_mem_iff (st : NodeState) (sender : Contact) (k : Nat)
    (hnew : isNewContact st sender = true)
    (hne : st.bucketContacts ≠ [])
    (hk : k ∈ vgetKeys st.storage) :
    ((∃ v, Effect.sendStore sender k v ∈ send_key_values_if_new_contact st sender) ↔
      st.ourContact.id ^^^ k <
        natListMin (st.bucketContacts.map (fun c => c.id ^^^ k))) ∧
    (∀ v, Effect.sendStore sender k v ∈ send_key_values_if_new_contact st sender →
      v = vgetValue st.storage k) := by
  have hlen : 0 < st.bucketContacts.length := List.length_pos.mpr hne
  have htrace : send_key_values_if_new_contact st sender
      = (vgetKeys st.storage).filterMap (fun k' =>
          if st.ourContact.id ^^^ k' <
              natListMin (st.bucketContacts.map (fun c => c.id ^^^ k')) then
            some (Effect.sendStore sender k' (vgetValue st.storage k'))
          else none) := by
    rw [send_key_values_if_new_contact, hnew]
    simp only [if_true, if_pos hlen]
  constructor
  · constructor
    · rintro ⟨v, hv⟩
      rw [htrace, List.mem_filterMap] at hv
      obtain ⟨k', hk', hf⟩ := hv
      by_cases hc : st.ourContact.id ^^^ k' <
          natListMin (st.bucketContacts.map (fun c => c.id ^^^ k'))
      · rw [if_pos hc] at hf
        have heq := Option.some.inj hf
        simp only [Effect.sendStore.injEq] at heq
        exact heq.2.1 ▸ hc
      · rw [if_neg hc] at hf
        exact absurd hf (by simp)
    · intro hc
      refine ⟨vgetValue st.storage k, ?_⟩
      rw [htrace, List.mem_filterMap]
      exact ⟨k, hk, by rw [if_pos hc]⟩
  · intro v hv
    rw [htrace, List.mem_filterMap] at hv
    obtain ⟨k', hk', hf⟩ := hv
    by_cases hc : st.ourContact.id ^^^ k' <
        natListMin (st.bucketContacts.map (fun c => c.id ^^^ k'))
    · rw [if_pos hc] at hf
      have heq := Option.some.inj hf
      simp only [Effect.sendStore.injEq] at heq
      exact (heq.2.1 ▸ heq.2.2).symm
    · rw [if_neg hc] at hf
      exact absurd hf (by simp)

theorem contactExists_addContactState_self (st : NodeState) (c : Contact) :
    contactExists (addContactState st c) c = true := by
  rw [addContactState]
  by_cases hex : contactExists st c
  · rw [if_pos hex]
    simp [contactExists, List.any_append]
  · rw [if_neg hex]
    simp [contactExists, List.any_append]

theorem isNewContact_addContactState_self (st : NodeState) (c : Contact) :
    isNewContact (addContactState st c) c = false := by
  simp only [isNewContact, contactExists_addContactState_self]
  by_cases hd : (addContactState st c).hasDht <;> simp [hd]

theorem send_key_values_addContactState_self (st : NodeState) (c : Contact) :
    send_key_values_if_new_contact (addContactState st c) c = [] := by
  rw [send_key_values_if_new_contact, isNewContact_addContactState_self]
  simp

/-- C1 (amended): for a sender `S` that is a new contact (not in the bucket
list, not among the DHT's pending contacts) and is not us, with a non-empty
bucket list: an incoming PING, FIND_NODE or FIND_VALUE sends STORE(key=k)
to `S`, for a key `k` of primary storage, if and only if `our_id XOR k` is
strictly below the minimum of `c.id XOR k` over the bucket-list contacts,
and any such STORE carries the stored value of `k`.  An incoming STORE
inserts the sender before the propagation check, so its only effect is that
insertion — it sends no key-propagation STOREs at all. -/
theorem claim_C1 (st : NodeState) (sender : Contact) (k key : Nat)
    (val : String) (isCached : Bool) (exp now : Nat)
    (hself : ¬ sender.id = st.ourContact.id)
    (hnew : isNewContact st sender = true)
    (hne : st.bucketContacts ≠ [])
    (hk : k ∈ vgetKeys st.storage) :
    ((∃ v, Effect.sendStore sender k v ∈ (ping st sender).2.2) ↔
      st.ourContact.id ^^^ k <
        natListMin (st.bucketContacts.map (fun c => c.id ^^^ k))) ∧
    ((∃ v, Effect.sendStore sender k v ∈ (find_node st key sender).2.2) ↔
      st.ourContact.id ^^^ k <
        natListMin (st.bucketContacts.map (fun c => c.id ^^^ k))) ∧
    ((∃ v, Effect.sendStore sender k v ∈ (find_value st key sender).2.2) ↔
      st.ourContact.id ^^^ k <
        natListMin (st.bucketContacts.map (fun c => c.id ^^^ k))) ∧
    (∀ v, Effect.sendStore sender k v ∈ (ping st sender).2.2 →
      v = vgetValue st.storage k) ∧
    (store st key sender val isCached exp now).2.2
      = [Effect.addContact sender] := by
  have hcore := send_key_values_mem_iff st sender k hnew hne hk
  have hping : (ping st sender).2.2
      = send_key_values_if_new_contact st sender ++ [Effect.addContact sender] := by
    rw [ping, if_neg hself]
  have hfn : (find_node st key sender).2.2
      = send_key_values_if_new_contact st sender ++ [Effect.addContact sender] := by
    rw [find_node, if_neg hself]
  have hfv : (find_value st key sender).2.2
      = send_key_values_if_new_contact st sender := by
    rw [find_value, if_neg hself]
    by_cases h1 : vcontains st.storage key
    · simp [h1]
    · by_cases h2 : vcontains st.cacheStorage key <;> simp [h1, h2]
  have happ : ∀ v, Effect.sendStore sender k v ∈
      send_key_values_if_new_contact st sender ++ [Effect.addContact sender] ↔
      Effect.sendStore sender k v ∈ send_key_values_if_new_contact st sender := by
    intro v
    simp [List.mem_append]
  refine ⟨?_, ?_, ?_, ?_, ?_⟩
  · rw [hping]
    exact Iff.trans (exists_congr happ) hcore.1
  · rw [hfn]
    exact Iff.trans (exists_congr happ) hcore.1
  · rw [hfv]
    exact hcore.1
  · intro v hv
    rw [hping, happ v] at hv
    exact hcore.2 v hv
  · rw [store, if_neg hself]
    by_cases hc : isCached
    · simp [hc]
    · simp [hc, send_key_values_addContactState_self]

/-- Witness for C1 (amended): a new sender (ID 2), one bucket contact
(ID 8), one stored key 1; our distance 0 XOR 1 = 1 is below 8 XOR 1 = 9, so
a PING from the sender triggers a STORE for key 1. -/
theorem claim_C1_witness :
    ∃ v, Effect.sendStore (Contact.mk 2) 1 v ∈
      (ping (NodeState.mk (Contact.mk 0) [(1, StoreValue.mk "a" 4 0)] []
        [Contact.mk 8] [] false) (Contact.mk 2)).2.2 :=
  ((claim_C1
      (NodeState.mk (Contact.mk 0) [(1, StoreValue.mk "a" 4 0)] []
        [Contact.mk 8] [] false) (Contact.mk 2) 1 0 "" false 0 0
      (by decide) (by decide) (by decide) (by decide)).1).mpr (by decide)

/-- Counterexample to C1 as stated: on the node of ID 0 with bucket list
[8] and stored key 1, the sender of ID 2 is new and `0 XOR 1 = 1` is below
the minimum other distance `8 XOR 1 = 9`, so the claim requires an incoming
RPC from that sender to send STORE(key=1) to it; but a non-cached STORE RPC
inserts the sender before the propagation check runs, and its whole effect
trace is that single insertion — no STORE is sent. -/
theorem claim_C1_cex :
    isNewContact (NodeState.mk (Contact.mk 0) [(1, StoreValue.mk "a" 4 0)] []
      [Contact.mk 8] [] false) (Contact.mk 2) = true ∧
    (0 : Nat) ^^^ 1 < natListMin ([Contact.mk 8].map (fun c => c.id ^^^ 1)) ∧
    (store (NodeState.mk (Contact.mk 0) [(1, StoreValue.mk "a" 4 0)] []
        [Contact.mk 8] [] false) 7 (Contact.mk 2) "x" false 0 0).2.2
      = [Effect.addContact (Contact.mk 2)] := by
  decide

theorem addContact_not_mem_send_key_values (st : NodeState) (s c : Contact) :
    Effect.addContact c ∉ send_key_values_if_new_contact st s := by
  intro hmem
  rw [send_key_values_if_new_contact] at hmem
  by_cases hnew : isNewContact st s
  · rw [hnew] at hmem
    simp only [if_true] at hmem
    by_cases hlen : 0 < st.bucketContacts.length
    · rw [if_pos hlen, List.mem_filterMap] at hmem
      obtain ⟨k, -, hf⟩ := hmem
      by_cases hc : st.ourContact.id ^^^ k <
          natListMin (st.bucketContacts.map (fun cc => cc.id ^^^ k))
      · rw [if_pos hc] at hf
        exact Effect.noConfusion (Option.some.inj hf)
      · rw [if_neg hc] at hf
        exact absurd hf (by simp)
    · rw [if_neg hlen] at hmem
      exact absurd hmem (List.not_mem_nil _)
  · rw [Bool.eq_false_iff.mpr hnew] at hmem
    simp only [Bool.false_eq_true, if_false] at hmem
    exact absurd hmem (List.not_mem_nil _)

/-- C2 (amended): for a sender distinct from the node itself, PING and
FIND_NODE insert the sender into the bucket list after running the
new-contact key propagation and before returning; STORE inserts the sender
*before* running the propagation (which runs only when `is_cached` is
false); FIND_VALUE runs the propagation but never inserts the sender and
leaves the node state unchanged. -/
theorem claim_C2 (st : NodeState) (key : Nat) (sender : Contact)
    (val : String) (isCached : Bool) (exp now : Nat)
    (h : ¬ sender.id = st.ourContact.id) :
    (ping st sender).2.2
      = send_key_values_if_new_contact st sender ++ [Effect.addContact sender] ∧
    (ping st sender).2.1 = addContactState st sender ∧
    (find_node st key sender).2.2
      = send_key_values_if_new_contact st sender ++ [Effect.addContact sender] ∧
    (find_node st key sender).2.1 = addContactState st sender ∧
    (store st key sender val isCached exp now).2.2
      = Effect.addContact sender ::
          (if isCached then []
           else send_key_values_if_new_contact (addContactState st sender) sender) ∧
    (∀ c, Effect.addContact c ∉ (find_value st key sender).2.2) ∧
    (find_value st key sender).2.1 = st := by
  refine ⟨?_, ?_, ?_, ?_, ?_, ?_, ?_⟩
  · rw [ping, if_neg h]
  · rw [ping, if_neg h]
  · rw [find_node, if_neg h]
  · rw [find_node, if_neg h]
  · rw [store, if_neg h]
    by_cases hc : isCached
    · simp only [hc, if_true]
    · simp only [hc, Bool.false_eq_true, if_false]
      rfl
  · intro c
    rw [find_value, if_neg h]
    by_cases h1 : vcontains st.storage key
    · simp only [h1, if_true]
      exact addContact_not_mem_send_key_values st sender c
    · simp only [h1, Bool.false_eq_true, if_false]
      by_cases h2 : vcontains st.cacheStorage key
      · simp only [h2, if_true]
        exact addContact_not_mem_send_key_values st sender c
      · simp only [h2, Bool.false_eq_true, if_false]
        exact addContact_not_mem_send_key_values st sender c
  · rw [find_value, if_neg h]
    by_cases h1 : vcontains st.storage key
    · simp only [h1, if_true]
    · simp only [h1, Bool.false_eq_true, if_false]
      by_cases h2 : vcontains st.cacheStorage key
      · simp only [h2, if_true]
      · simp only [h2, Bool.false_eq_true, if_false]

/-- Witness for C2 (amended) at a concrete node state and sender. -/
theorem claim_C2_witness :
    (ping (NodeState.mk (Contact.mk 0) [] [] [] [] false) (Contact.mk 1)).2.2
      = send_key_values_if_new_contact
          (NodeState.mk (Contact.mk 0) [] [] [] [] false) (Contact.mk 1)
        ++ [Effect.addContact (Contact.mk 1)] :=
  (claim_C2 (NodeState.mk (Contact.mk 0) [] [] [] [] false) 7 (Contact.mk 1)
    "" false 0 0 (by decide)).1

/-- Counterexample to C2 as stated: on this node (ID 0, empty bucket list)
a FIND_VALUE from the previously unseen sender ID 1 succeeds, yet the
sender is not inserted — the bucket list is still empty and the trace holds
no insertion at all. -/
theorem claim_C2_cex :
    (find_value (NodeState.mk (Contact.mk 0) [] [] [] [] false) 7
        (Contact.mk 1)).1 = Except.ok (some [], none) ∧
    (find_value (NodeState.mk (Contact.mk 0) [] [] [] [] false) 7
        (Contact.mk 1)).2.1.bucketContacts = [] ∧
    (find_value (NodeState.mk (Contact.mk 0) [] [] [] [] false) 7
        (Contact.mk 1)).2.2 = [] :=
  ⟨rfl, rfl, rfl⟩

theorem hasId_append (l1 l2 : List Contact) (i : Nat) :
    hasId (l1 ++ l2) i = (hasId l1 i || hasId l2 i) := by
  simp [hasId, List.any_append]

theorem hasId_dedupAppend (ps : List Contact) (i : Nat) :
    ∀ acc : List Contact,
      hasId (dedupAppend acc ps) i
        = (hasId acc i || ps.any (fun p => p.id = i)) := by
  induction ps with
  | nil => intro acc; simp [dedupAppend, hasId]
  | cons p ps ih =>
    intro acc
    have hstep : dedupAppend acc (p :: ps)
        = dedupAppend (if hasId acc p.id then acc else acc ++ [p]) ps := rfl
    rw [hstep, ih]
    by_cases hp : hasId acc p.id = true
    · rw [if_pos hp]
      by_cases hpi : p.id = i
      · have hi : hasId acc i = true := hpi ▸ hp
        simp [hi]
      · simp [hpi]
    · rw [if_neg hp, hasId_append]
      have h1 : hasId [p] i = decide (p.id = i) := by simp [hasId]
      rw [h1]
      simp [Bool.or_assoc]

/-- C3: in `get_closer_nodes`, a returned contact `C` that is not us, not
the queried node `N`, and not already in `closer`/`further`, ends up in the
updated `closer` list iff `C.id XOR N.id < N.id XOR key`, and in the
updated `further` list iff not. -/
theorem claim_C3 (ourId key : Nat) (N C : Contact)
    (contacts closer further : List Contact)
    (hC : C ∈ contacts) (h1 : C.id ≠ ourId) (h2 : C.id ≠ N.id)
    (h3 : hasId closer C.id = false) (h4 : hasId further C.id = false) :
    (hasId (get_closer_nodes ourId key N contacts closer further).1 C.id = true ↔
      C.id ^^^ N.id < N.id ^^^ key) ∧
    (hasId (get_closer_nodes ourId key N contacts closer further).2 C.id = true ↔
      ¬ (C.id ^^^ N.id < N.id ^^^ key)) := by
  have hCpeer : C ∈ contacts.filter (fun c =>
      c.id ≠ ourId && N.id ≠ c.id && !hasId closer c.id && !hasId further c.id) := by
    rw [List.mem_filter]
    refine ⟨hC, ?_⟩
    simp [h1, Ne.symm h2, h3, h4]
  constructor
  · rw [show (get_closer_nodes ourId key N contacts closer further).1
        = dedupAppend closer
            ((contacts.filter (fun c =>
              c.id ≠ ourId && N.id ≠ c.id && !hasId closer c.id && !hasId further c.id)).filter
              (fun p => p.id ^^^ N.id < N.id ^^^ key)) from rfl]
    rw [hasId_dedupAppend, h3]
    simp only [Bool.false_or, List.any_eq_true]
    constructor
    · rintro ⟨x, hx, hxid⟩
      rw [List.mem_filter] at hx
      have hxlt : x.id ^^^ N.id < N.id ^^^ key := by simpa using hx.2
      have hxC : x.id = C.id := by simpa using hxid
      rwa [hxC] at hxlt
    · intro hlt
      exact ⟨C, List.mem_filter.mpr ⟨hCpeer, by simpa using hlt⟩, by simp⟩
  · rw [show (get_closer_nodes ourId key N contacts closer further).2
        = dedupAppend further
            ((contacts.filter (fun c =>
              c.id ≠ ourId && N.id ≠ c.id && !hasId closer c.id && !hasId further c.id)).filter
              (fun p => !(p.id ^^^ N.id < N.id ^^^ key))) from rfl]
    rw [hasId_dedupAppend, h4]
    simp only [Bool.false_or, List.any_eq_true]
    constructor
    · rintro ⟨x, hx, hxid⟩
      rw [List.mem_filter] at hx
      have hxlt : ¬ (x.id ^^^ N.id < N.id ^^^ key) := by simpa using hx.2
      have hxC : x.id = C.id := by simpa using hxid
      rwa [hxC] at hxlt
    · intro hlt
      exact ⟨C, List.mem_filter.mpr ⟨hCpeer, by simpa using hlt⟩, by simp⟩

/-- Witness for C3: our ID 0, key 0, queried node N with ID 8 (so the
pre-call distance is 8), returned contact C with ID 1 at distance
1 XOR 8 = 9 ≥ 8, which therefore lands in `further`. -/
theorem claim_C3_witness :
    hasId (get_closer_nodes 0 0 (Contact.mk 8) [Contact.mk 1] [] []).2 1 = true :=
  ((claim_C3 0 0 (Contact.mk 8) (Contact.mk 1) [Contact.mk 1] [] []
      (by decide) (by decide) (by decide) (by decide) (by decide)).2).mpr
    (by decide)

/-- C4 fails on the code: the serial lookup's drain loop iterates over
`all_nodes[Constants.A + 1:]` instead of `all_nodes[Constants.A:]`, so the
initial contact at index A is placed in neither `closer` nor `further`.
With our ID 0, key 0 and initial contacts of IDs 1..5, the contact of ID 4
(index 3 = A) is in neither output list, though it is an initial contact
beyond the first α and the claim puts every such contact into `further`. -/
theorem claim_C4_bug :
    Contact.mk 4 ∈
      [Contact.mk 1, Contact.mk 2, Contact.mk 3, Contact.mk 4, Contact.mk 5] ∧
    Contact.mk 4 ∉ (lookupInit 0 0
      [Contact.mk 1, Contact.mk 2, Contact.mk 3, Contact.mk 4, Contact.mk 5]).2.1 ∧
    Contact.mk 4 ∉ (lookupInit 0 0
      [Contact.mk 1, Contact.mk 2, Contact.mk 3, Contact.mk 4, Contact.mk 5]).2.2 := by
  decide

theorem mem_insertByDistance (key : Nat) (c x : Contact) :
    ∀ l : List Contact, x ∈ insertByDistance key c l → x = c ∨ x ∈ l := by
  intro l
  induction l with
  | nil =>
    intro h
    rw [insertByDistance] at h
    exact Or.inl (List.mem_singleton.mp h)
  | cons a l ih =>
    intro h
    rw [insertByDistance] at h
    by_cases hle : c.id ^^^ key ≤ a.id ^^^ key
    · rw [if_pos hle] at h
      rcases List.mem_cons.mp h with h' | h'
      · exact Or.inl h'
      · exact Or.inr h'
    · rw [if_neg hle] at h
      rcases List.mem_cons.mp h with h' | h'
      · exact Or.inr (List.mem_cons.mpr (Or.inl h'))
      · rcases ih h' with h'' | h''
        · exact Or.inl h''
        · exact Or.inr (List.mem_cons.mpr (Or.inr h''))

theorem mem_sortByDistance (key : Nat) (x : Contact) :
    ∀ l : List Contact, x ∈ sortByDistance key l → x ∈ l := by
  intro l
  induction l with
  | nil => intro h; exact absurd h (List.not_mem_nil x)
  | cons a l ih =>
    intro h
    have hstep : sortByDistance key (a :: l)
        = insertByDistance key a (sortByDistance key l) := rfl
    rw [hstep] at h
    rcases mem_insertByDistance key a x _ h with h' | h'
    · exact h' ▸ List.mem_cons_self a l
    · exact List.mem_cons.mpr (Or.inr (ih h'))

theorem get_close_contacts_excludes (contacts : List Contact) (key ex : Nat) :
    ∀ c ∈ get_close_contacts contacts key ex, c.id ≠ ex := by
  intro c hc
  rw [get_close_contacts] at hc
  have h1 : c ∈ sortByDistance key (contacts.filter (fun x => x.id ≠ ex)) :=
    List.take_subset _ _ hc
  have h2 := mem_sortByDistance key c _ h1
  rw [List.mem_filter] at h2
  simpa using h2.2

/-- C5: a FIND_VALUE from a sender other than us answers with the primary
storage's value when the key is there, else with the cache storage's value
when it is there, else with the close-contact list (which never contains
the sender) and no value. -/
theorem claim_C5 (st : NodeState) (key : Nat) (sender : Contact)
    (h : ¬ sender.id = st.ourContact.id) :
    (vcontains st.storage key = true →
      (find_value st key sender).1
        = Except.ok (none, some (vgetValue st.storage key))) ∧
    (vcontains st.storage key = false → vcontains st.cacheStorage key = true →
      (find_value st key sender).1
        = Except.ok (none, some (vgetValue st.cacheStorage key))) ∧
    (vcontains st.storage key = false → vcontains st.cacheStorage key = false →
      (find_value st key sender).1
        = Except.ok (some (get_close_contacts st.bucketContacts key sender.id), none) ∧
      ∀ c ∈ get_close_contacts st.bucketContacts key sender.id, c.id ≠ sender.id) := by
  refine ⟨?_, ?_, ?_⟩
  · intro h1
    rw [find_value, if_neg h]
    simp only [h1, if_true]
  · intro h1 h2
    rw [find_value, if_neg h]
    simp only [h1, Bool.false_eq_true, if_false, h2, if_true]
  · intro h1 h2
    rw [find_value, if_neg h]
    simp only [h1, h2, Bool.false_eq_true, if_false]
    exact ⟨trivial, get_close_contacts_excludes st.bucketContacts key sender.id⟩

/-- Witness for C5: node ID 0 holding key 1 in primary storage answers a
FIND_VALUE for key 1 from sender ID 2 with the stored value. -/
theorem claim_C5_witness :
    (find_value
        (NodeState.mk (Contact.mk 0) [(1, StoreValue.mk "a" 4 0)] []
          [Contact.mk 8] [] false) 1 (Contact.mk 2)).1
      = Except.ok (none, some (vgetValue [(1, StoreValue.mk "a" 4 0)] 1)) :=
  (claim_C5
    (NodeState.mk (Contact.mk 0) [(1, StoreValue.mk "a" 4 0)] []
      [Contact.mk 8] [] false) 1 (Contact.mk 2) (by decide)).1 (by decide)

/-- C6: a STORE from a sender other than us writes (key, val, caller's
expiration) to the cache storage when `is_cached` is true, and otherwise
writes (key, val, `EXPIRATION_TIME_SEC`) to the primary storage regardless
of the caller-supplied expiration; the other storage is untouched. -/
theorem claim_C6 (st : NodeState) (key : Nat) (sender : Contact)
    (val : String) (exp now : Nat)
    (h : ¬ sender.id = st.ourContact.id) :
    ((store st key sender val true exp now).2.1.cacheStorage
        = vset st.cacheStorage key val exp now ∧
      (store st key sender val true exp now).2.1.storage = st.storage) ∧
    ((store st key sender val false exp now).2.1.storage
        = vset st.storage key val EXPIRATION_TIME_SEC now ∧
      vfind (store st key sender val false exp now).2.1.storage key
        = some (StoreValue.mk val EXPIRATION_TIME_SEC now) ∧
      (store st key sender val false exp now).2.1.cacheStorage
        = st.cacheStorage) := by
  have hcached : (store st key sender val true exp now).2.1
      = { addContactState st sender with
          cacheStorage := vset (addContactState st sender).cacheStorage key val exp now } := by
    rw [store, if_neg h]
    rfl
  have hplain : (store st key sender val false exp now).2.1
      = { addContactState st sender with
          storage :=
            vset (addContactState st sender).storage key val EXPIRATION_TIME_SEC now } := by
    rw [store, if_neg h]
    rfl
  have hstorage : (addContactState st sender).storage = st.storage := by
    rw [addContactState]
    by_cases hex : contactExists st sender
    · rw [if_pos hex]
    · rw [if_neg hex]
  have hcache : (addContactState st sender).cacheStorage = st.cacheStorage := by
    rw [addContactState]
    by_cases hex : contactExists st sender
    · rw [if_pos hex]
    · rw [if_neg hex]
  refine ⟨⟨?_, ?_⟩, ?_, ?_, ?_⟩
  · rw [hcached]
    simp [hcache]
  · rw [hcached]
    simp [hstorage]
  · rw [hplain]
    simp [hstorage]
  · rw [hplain]
    simp only [hstorage]
    exact vfind_vset_self st.storage key val EXPIRATION_TIME_SEC now
  · rw [hplain]
    simp [hcache]

/-- Witness for C6: a non-cached STORE of key 1 with caller expiration 5
lands in primary storage with the default expiration 86400. -/
theorem claim_C6_witness :
    vfind (store (NodeState.mk (Contact.mk 0) [] [] [] [] false) 1
        (Contact.mk 2) "x" false 5 7).2.1.storage 1
      = some (StoreValue.mk "x" EXPIRATION_TIME_SEC 7) :=
  (claim_C6 (NodeState.mk (Contact.mk 0) [] [] [] [] false) 1 (Contact.mk 2)
    "x" 5 7 (by decide)).2.2.1

/-- Whether an RPC handler's result is an exception. -/
def isErr {α : Type} : Except NodeError α → Bool
  | Except.error _ => true
  | Except.ok _ => false

/-- C7: each RPC handler raises exactly when the sender's ID equals the
node's own ID, and in that case the node state is unchanged and no side
effect (STORE RPC or bucket-list insertion) has happened. -/
theorem claim_C7 (st : NodeState) (key : Nat) (sender : Contact)
    (val : String) (isCached : Bool) (exp now : Nat) :
    (isErr (ping st sender).1 = true ↔ sender.id = st.ourContact.id) ∧
    (isErr (store st key sender val isCached exp now).1 = true ↔
      sender.id = st.ourContact.id) ∧
    (isErr (find_node st key sender).1 = true ↔ sender.id = st.ourContact.id) ∧
    (isErr (find_value st key sender).1 = true ↔ sender.id = st.ourContact.id) ∧
    (sender.id = st.ourContact.id →
      (ping st sender).2 = (st, []) ∧
      (store st key sender val isCached exp now).2 = (st, []) ∧
      (find_node st key sender).2 = (st, []) ∧
      (find_value st key sender).2 = (st, [])) := by
  by_cases hs : sender.id = st.ourContact.id
  · refine ⟨?_, ?_, ?_, ?_, fun _ => ⟨?_, ?_, ?_, ?_⟩⟩
    · rw [ping, if_pos hs]; simp [isErr, hs]
    · rw [store, if_pos hs]; simp [isErr, hs]
    · rw [find_node, if_pos hs]; simp [isErr, hs]
    · rw [find_value, if_pos hs]; simp [isErr, hs]
    · rw [ping, if_pos hs]
    · rw [store, if_pos hs]
    · rw [find_node, if_pos hs]
    · rw [find_value, if_pos hs]
  · refine ⟨?_, ?_, ?_, ?_, fun hc => absurd hc hs⟩
    · rw [ping, if_neg hs]; simp [isErr, hs]
    · rw [store, if_neg hs]
      by_cases hc : isCached
      · simp [hc, isErr, hs]
      · simp [hc, isErr, hs]
    · rw [find_node, if_neg hs]; simp [isErr, hs]
    · rw [find_value, if_neg hs]
      by_cases h1 : vcontains st.storage key
      · simp [h1, isErr, hs]
      · by_cases h2 : vcontains st.cacheStorage key
        · simp [h1, h2, isErr, hs]
        · simp [h1, h2, isErr, hs]

/-- Witness for C7: the node of ID 0 rejects a ping from sender ID 0 with
no state change, and accepts one from sender ID 1. -/
theorem claim_C7_witness :
    isErr (ping (NodeState.mk (Contact.mk 0) [] [] [] [] false)
      (Contact.mk 0)).1 = true ∧
    (ping (NodeState.mk (Contact.mk 0) [] [] [] [] false) (Contact.mk 0)).2
      = (NodeState.mk (Contact.mk 0) [] [] [] [] false, []) ∧
    isErr (ping (NodeState.mk (Contact.mk 0) [] [] [] [] false)
      (Contact.mk 1)).1 = false := by
  have hself := claim_C7 (NodeState.mk (Contact.mk 0) [] [] [] [] false)
    0 (Contact.mk 0) "" false 0 0
  have hother := claim_C7 (NodeState.mk (Contact.mk 0) [] [] [] [] false)
    0 (Contact.mk 1) "" false 0 0
  refine ⟨hself.1.mpr rfl, (hself.2.2.2.2 rfl).1, ?_⟩
  have hne : ¬ isErr (ping (NodeState.mk (Contact.mk 0) [] [] [] [] false)
      (Contact.mk 1)).1 = true :=
    fun hh => absurd (hother.1.mp hh) (by decide)
  exact Bool.not_eq_true _ ▸ hne

end Kademlia
